import Mathlib

/-!
Shallow embedding of `src/linear-utils.ts` (shipyardapp/actions-linear).

The script is a CLI invoked from CI: given a branch name it parses an
assignee and an issue identifier out of the branch string, advances the
issue to its team draft workflow state when the issue is still in an
early state, and assigns the issue to the user named by the branch.

The embedding models the remote Linear entities the script reads
(organization, issue, workflow state, team, user) as plain structures,
models the observable effects (API fetches, user queries, issue update
calls, process exit) as explicit event traces, and models thrown
JavaScript errors as values of an `Except` type.
-/

namespace LinearUtils

/-- A Linear workflow state as read by the script: its `id` (used in
update payloads), its display `name` and its `type` classification
(`triage`, `backlog`, `unstarted`, `started`, ...). -/
structure WorkflowState where
  id : String
  name : String
  type : String
  deriving Repr, DecidableEq

/-- A Linear team as read by the script: only its (nullable) configured
draft workflow state is consumed (`team.draftWorkflowState`). -/
structure Team where
  draftWorkflowState : Option WorkflowState
  deriving Repr, DecidableEq

/-- A Linear user as read by the script: its `id` and `displayName`. -/
structure User where
  id : String
  displayName : String
  deriving Repr, DecidableEq

/-- A Linear issue as read by the script: its (nullable) workflow
`state`, its (nullable) `team` and its (nullable) `assignee`. -/
structure Issue where
  state : Option WorkflowState
  team : Option Team
  assignee : Option User
  deriving Repr, DecidableEq

/-- The organization record: only `gitBranchFormat` is consumed. -/
structure Organization where
  gitBranchFormat : String
  deriving Repr, DecidableEq

/-- The result of `collectAssigneeIssueIdentifierFromBranchName`:
`{ assignee: string|null, issueIdentifier: string }`. -/
structure BranchSpec where
  assignee : Option String
  issueIdentifier : String
  deriving Repr, DecidableEq

/-- The distinct errors thrown by `linear-utils.ts`, named as in the
specification. The source messages are, in order:
`IncompatibleBranchFormat`, `Issue does not belong to a Team`,
`Team does not have draft state OR issue does not have state`,
`Unable to get User information to assign`. -/
inductive LinearError where
  | IncompatibleBranchFormat
  | MissingTeam
  | MissingDraftStateOrIssueState
  | AssigneeResolutionFailed
  deriving Repr, DecidableEq

/-- Decidable equality for `Except`, so that concrete runs of the
embedded functions can be checked by `decide`. -/
instance instDecEqExcept {ε α : Type} [DecidableEq ε] [DecidableEq α] :
    DecidableEq (Except ε α)
  | Except.ok a, Except.ok b =>
    if h : a = b then isTrue (congrArg Except.ok h)
    else isFalse (fun hc => h (Except.ok.inj hc))
  | Except.ok _, Except.error _ => isFalse (fun hc => Except.noConfusion hc)
  | Except.error _, Except.ok _ => isFalse (fun hc => Except.noConfusion hc)
  | Except.error e, Except.error f =>
    if h : e = f then isTrue (congrArg Except.error h)
    else isFalse (fun hc => h (Except.error.inj hc))

/-- A partial issue-update payload, as passed to `issue.update({...})`:
either `{ stateId }` or `{ assigneeId }`. -/
inductive IssueUpdate where
  | setState (stateId : String)
  | setAssignee (assigneeId : String)
  deriving Repr, DecidableEq

/-- Observable remote effects of one invocation: fetching the current
organization, fetching an issue by identifier, querying users by display
name, and issuing an issue update call. -/
inductive Event where
  | fetchOrganization
  | fetchIssue (identifier : String)
  | userQuery (displayName : String)
  | update (u : IssueUpdate)
  deriving Repr, DecidableEq

/-- The remote Linear workspace a single invocation runs against:
the current organization, the issue returned by the issue fetch, and
the set of all users (the server-side display-name filter is modelled
as exact equality over this list). -/
structure World where
  organization : Organization
  issue : Issue
  users : List User
  deriving Repr, DecidableEq

/-- JavaScript `String.prototype.split` with a one-character separator,
on the underlying character list: `"a/b" ↦ [['a'],['b']]`,
`"" ↦ [[]]`, `"/x" ↦ [[],['x']]`. -/
def splitOnChar (sep : Char) : List Char → List (List Char)
  | [] => [[]]
  | c :: cs =>
    let rest := splitOnChar sep cs
    if c = sep then
      [] :: rest
    else
      match rest with
      | [] => [[c]]
      | r :: rs => (c :: r) :: rs

/-- JavaScript `branch.split(sep)` for a one-character separator. -/
def jsSplit (s : String) (sep : Char) : List String :=
  (splitOnChar sep s.toList).map (fun cs => String.mk cs)

/-- JavaScript `String.prototype.toUpperCase`, modelled character-wise
(faithful on the ASCII identifiers the script handles). -/
def jsToUpperCase (s : String) : String :=
  String.mk (s.toList.map Char.toUpper)

/-- Source lines 103-135. Given the organization and the branch name,
produce `{ assignee, issueIdentifier }` or throw
`IncompatibleBranchFormat`. Mirrors the source exactly: the format must
be the one supported literal; the branch is split on a slash and must
give exactly two segments; segment 1 is split on a dash and must give
at least two parts; the identifier is the uppercased part 0, a dash,
and part 1 unchanged. (The final null re-check of the source, line 130,
is unreachable on the success path and has no counterpart here.) -/
def collectAssigneeIssueIdentifierFromBranchName (org : Organization) (branch : String) :
    Except LinearError BranchSpec :=
  if org.gitBranchFormat = "{username}/{issueIdentifier}-{issueTitle}" then
    let slashParts := jsSplit branch '/'
    if slashParts.length ≠ 2 then
      Except.error LinearError.IncompatibleBranchFormat
    else
      let assignee : Option String := some (slashParts.getD 0 "")
      let idTitleParts := jsSplit (slashParts.getD 1 "") '-'
      if idTitleParts.length < 2 then
        Except.error LinearError.IncompatibleBranchFormat
      else
        Except.ok
          { assignee := assignee
            issueIdentifier :=
              jsToUpperCase (idTitleParts.getD 0 "") ++ "-" ++ idTitleParts.getD 1 "" }
  else
    Except.error LinearError.IncompatibleBranchFormat

/-- Source lines 48-67. Fetches the issue by `issueIdentifier`, reads
its state and team, throws `MissingTeam` when the team is null, reads
the team draft workflow state, throws `MissingDraftStateOrIssueState`
when the draft state or the issue state is null, and issues one
update `{ stateId: teamDraftState.id }` exactly when the issue state
type is in `['triage', 'backlog', 'unstarted']`. Returns the fetched
issue together with the trace of remote effects. -/
def maybeUpdateIssueToTeamDraftState (w : World) (issueIdentifier : String) :
    List Event × Except LinearError Issue :=
  let issue := w.issue
  let fetch := [Event.fetchIssue issueIdentifier]
  match issue.team with
  | none => (fetch, Except.error LinearError.MissingTeam)
  | some team =>
    match team.draftWorkflowState with
    | none => (fetch, Except.error LinearError.MissingDraftStateOrIssueState)
    | some teamDraftState =>
      match issue.state with
      | none => (fetch, Except.error LinearError.MissingDraftStateOrIssueState)
      | some issueState =>
        if issueState.type ∈ (["triage", "backlog", "unstarted"] : List String) then
          (fetch ++ [Event.update (IssueUpdate.setState teamDraftState.id)], Except.ok issue)
        else
          (fetch, Except.ok issue)

/-- Source lines 91-101. Queries users filtered by exact display-name
equality (the server-side `{ displayName: { eq } }` filter is modelled
as a filter over the workspace user list) and returns the single match,
or null unless exactly one user matched. -/
def getUserFromDisplayName (w : World) (displayName : String) : Option User :=
  let nodes := w.users.filter (fun u => u.displayName = displayName)
  if nodes.length ≠ 1 then none else nodes.head?

/-- Source lines 69-89. If the assignee name is falsy (null or the
empty string), return the issue unchanged with no remote effect. If the
issue already has an assignee, log and return it unchanged. Otherwise
resolve the user by display name; throw
`AssigneeResolutionFailed` when that returns null, else issue one
update `{ assigneeId: user.id }`. -/
def maybeSetIssueAssignee (w : World) (issue : Issue) (assigneeName : Option String) :
    List Event × Except LinearError Issue :=
  match assigneeName with
  | none => ([], Except.ok issue)
  | some name =>
    if name = "" then
      ([], Except.ok issue)
    else
      match issue.assignee with
      | some _ => ([], Except.ok issue)
      | none =>
        match getUserFromDisplayName w name with
        | none => ([Event.userQuery name], Except.error LinearError.AssigneeResolutionFailed)
        | some user =>
          ([Event.userQuery name, Event.update (IssueUpdate.setAssignee user.id)],
           Except.ok issue)

/-- Source lines 35-46. The `on-create-branch` orchestrator: fetch the
current organization, parse the branch name against its configured
format, run the workflow advancer on the parsed issue identifier, then
run the assignee setter on the parsed assignee. A thrown error at any
stage propagates and the later stages do not run. -/
def onCreateBranch (w : World) (branchName : String) :
    List Event × Except LinearError Issue :=
  match collectAssigneeIssueIdentifierFromBranchName w.organization branchName with
  | Except.error e => ([Event.fetchOrganization], Except.error e)
  | Except.ok spec =>
    match maybeUpdateIssueToTeamDraftState w spec.issueIdentifier with
    | (evs₁, Except.error e) => (Event.fetchOrganization :: evs₁, Except.error e)
    | (evs₁, Except.ok issue) =>
      let r := maybeSetIssueAssignee w issue spec.assignee
      (Event.fetchOrganization :: (evs₁ ++ r.1), r.2)

/-- The resolved command-line arguments consumed by `main`: the yargs
positional command list `args._` and the parsed branch name. -/
structure Arguments where
  positional : List String
  branchName : Option String
  deriving Repr, DecidableEq

/-- Observable process-level steps of `main`: exiting with a code,
constructing the Linear API client, and the network-touching stages. -/
inductive MainEvent where
  | exitProcess (code : Nat)
  | constructClient
  | fetchOrganization
  | runCommand (command : String)
  deriving Repr, DecidableEq

/-- Source lines 137-150. `main` exits with code 1 when the positional
command list does not have exactly one entry, before constructing the
client; otherwise it constructs the client, fetches the organization,
and dispatches `on-create-branch` when that is the command. -/
def main (args : Arguments) : List MainEvent :=
  if args.positional.length ≠ 1 then
    [MainEvent.exitProcess 1]
  else
    MainEvent.constructClient :: MainEvent.fetchOrganization ::
      (if args.positional.getD 0 "" = "on-create-branch" then
        [MainEvent.runCommand "on-create-branch"]
      else
        [])

/-! Concrete sample data, used to witness the theorems below on closed
inputs: a backlog issue of a team whose draft state is In Review, in a
workspace with a single user named bob. -/

/-- A sample current issue state of type `backlog`. -/
def backlogState : WorkflowState :=
  { id := "state-backlog", name := "Backlog", type := "backlog" }

/-- A sample team draft workflow state. -/
def draftState : WorkflowState :=
  { id := "state-draft", name := "In Review", type := "unstarted" }

/-- A sample team configured with `draftState`. -/
def teamEx : Team := { draftWorkflowState := some draftState }

/-- A sample user with display name bob. -/
def userBob : User := { id := "user-bob", displayName := "bob" }

/-- A sample unassigned issue in the backlog. -/
def issueEx : Issue :=
  { state := some backlogState, team := some teamEx, assignee := none }

/-- A sample issue that already has an assignee. -/
def assignedIssue : Issue :=
  { state := some backlogState, team := some teamEx, assignee := some userBob }

/-- A sample organization configured with the supported format. -/
def orgEx : Organization :=
  { gitBranchFormat := "{username}/{issueIdentifier}-{issueTitle}" }

/-- A sample workspace combining the data above. -/
def worldEx : World :=
  { organization := orgEx, issue := issueEx, users := [userBob] }

/-- Helper: whenever the configured format is the supported one, the
branch splits on the slash into exactly two segments, and the second
segment splits on the dash into at least two parts, parsing succeeds
with the first segment as assignee and the identifier built from the
first two dash parts. Shared by several theorems below. -/
theorem collect_ok_of_splits
    (org : Organization) (branch a b p0 p1 : String) (rest : List String)
    (hfmt : org.gitBranchFormat = "{username}/{issueIdentifier}-{issueTitle}")
    (hs : jsSplit branch '/' = [a, b])
    (hd : jsSplit b '-' = p0 :: p1 :: rest) :
    collectAssigneeIssueIdentifierFromBranchName org branch =
      Except.ok { assignee := some a, issueIdentifier := jsToUpperCase p0 ++ "-" ++ p1 } := by
  simp [collectAssigneeIssueIdentifierFromBranchName, hfmt, hs, hd, List.getD]

/-- C1: for every branch string with exactly one slash (so splitting on
the slash yields two segments) and at least one dash in the second
segment, under the supported configured format, parsing returns the
first segment as the assignee and the uppercased first dash part, a
dash, and the unchanged second dash part as the issue identifier; any
further dash parts are discarded. -/
theorem parse_extracts_assignee_and_identifier
    (org : Organization) (branch a b p0 p1 : String) (rest : List String)
    (hfmt : org.gitBranchFormat = "{username}/{issueIdentifier}-{issueTitle}")
    (hs : jsSplit branch '/' = [a, b])
    (hd : jsSplit b '-' = p0 :: p1 :: rest) :
    collectAssigneeIssueIdentifierFromBranchName org branch =
      Except.ok { assignee := some a, issueIdentifier := jsToUpperCase p0 ++ "-" ++ p1 } :=
  collect_ok_of_splits org branch a b p0 p1 rest hfmt hs hd

/-- Witness for C1 on the branch `eng/eng-5-fix` of the specification:
the assignee is `eng` and the identifier is `ENG-5`, the extra title
word `fix` discarded. -/
theorem parse_extracts_assignee_and_identifier_witness :
    collectAssigneeIssueIdentifierFromBranchName orgEx "eng/eng-5-fix" =
      Except.ok { assignee := some "eng", issueIdentifier := jsToUpperCase "eng" ++ "-" ++ "5" } :=
  parse_extracts_assignee_and_identifier orgEx "eng/eng-5-fix" "eng" "eng-5-fix" "eng" "5"
    ["fix"] rfl (by decide) (by decide)

/-- C5: parsing fails with `IncompatibleBranchFormat` exactly when the
configured format is not the supported literal, or splitting the branch
on the slash does not give exactly two segments, or splitting the
second segment on the dash gives fewer than two parts. -/
theorem parse_error_iff_unsupported_shape (org : Organization) (branch : String) :
    collectAssigneeIssueIdentifierFromBranchName org branch =
        Except.error LinearError.IncompatibleBranchFormat ↔
      org.gitBranchFormat ≠ "{username}/{issueIdentifier}-{issueTitle}" ∨
        (jsSplit branch '/').length ≠ 2 ∨
        (jsSplit ((jsSplit branch '/').getD 1 "") '-').length < 2 := by
  by_cases h1 : org.gitBranchFormat = "{username}/{issueIdentifier}-{issueTitle}"
  · by_cases h2 : (jsSplit branch '/').length = 2
    · by_cases h3 : (jsSplit ((jsSplit branch '/').getD 1 "") '-').length < 2
      · simp [collectAssigneeIssueIdentifierFromBranchName, h1, h2, h3, List.getD]
      · simp [collectAssigneeIssueIdentifierFromBranchName, h1, h2, h3, List.getD]
    · simp [collectAssigneeIssueIdentifierFromBranchName, h1, h2]
  · simp [collectAssigneeIssueIdentifierFromBranchName, h1]

/-- C9: the parser performs no shape validation beyond the split
counts: whenever the format is supported, the branch has exactly one
slash, and the second segment has at least one dash, parsing succeeds;
in particular the branch `user/fix-bug` parses to the non-numeric
identifier `FIX-bug`. -/
theorem parse_skips_identifier_shape_validation :
    (∀ (org : Organization) (branch a b p0 p1 : String) (rest : List String),
        org.gitBranchFormat = "{username}/{issueIdentifier}-{issueTitle}" →
        jsSplit branch '/' = [a, b] →
        jsSplit b '-' = p0 :: p1 :: rest →
        ∃ spec, collectAssigneeIssueIdentifierFromBranchName org branch = Except.ok spec) ∧
    collectAssigneeIssueIdentifierFromBranchName orgEx "user/fix-bug" =
      Except.ok { assignee := some "user", issueIdentifier := "FIX-bug" } := by
  constructor
  · intro org branch a b p0 p1 rest hfmt hs hd
    exact ⟨_, collect_ok_of_splits org branch a b p0 p1 rest hfmt hs hd⟩
  · decide

/-- Witness for C9: the first conjunct applied to `alice/fix-bug-now`. -/
theorem parse_skips_identifier_shape_validation_witness :
    ∃ spec, collectAssigneeIssueIdentifierFromBranchName orgEx "alice/fix-bug-now" =
      Except.ok spec :=
  parse_skips_identifier_shape_validation.1 orgEx "alice/fix-bug-now" "alice" "fix-bug-now"
    "fix" "bug" ["now"] rfl (by decide) (by decide)

/-- C10: whenever parsing succeeds the assignee is never null: it is
the segment before the slash, possibly the empty string, as on the
branch `/eng-5-fix`; and the assignee setter treats an empty-string
assignee like an absent one, performing no user lookup and no update. -/
theorem parse_assignee_never_null_and_empty_is_noop :
    (∀ (org : Organization) (branch : String) (spec : BranchSpec),
        collectAssigneeIssueIdentifierFromBranchName org branch = Except.ok spec →
        spec.assignee = some ((jsSplit branch '/').getD 0 "")) ∧
    collectAssigneeIssueIdentifierFromBranchName orgEx "/eng-5-fix" =
      Except.ok { assignee := some "", issueIdentifier := "ENG-5" } ∧
    (∀ (w : World) (issue : Issue),
        maybeSetIssueAssignee w issue (some "") = ([], Except.ok issue)) := by
  refine ⟨?_, by decide, ?_⟩
  · intro org branch spec h
    by_cases h1 : org.gitBranchFormat = "{username}/{issueIdentifier}-{issueTitle}"
    · by_cases h2 : (jsSplit branch '/').length = 2
      · obtain ⟨a, b, hab⟩ := List.length_eq_two.mp h2
        rcases hd : jsSplit b '-' with _ | ⟨p0, _ | ⟨p1, rest⟩⟩
        · simp [collectAssigneeIssueIdentifierFromBranchName, h1, hab, hd] at h
        · simp [collectAssigneeIssueIdentifierFromBranchName, h1, hab, hd] at h
        · rw [collect_ok_of_splits org branch a b p0 p1 rest h1 hab hd] at h
          injection h with h'
          rw [← h', hab]
          simp [List.getD]
      · simp [collectAssigneeIssueIdentifierFromBranchName, h1, h2] at h
    · simp [collectAssigneeIssueIdentifierFromBranchName, h1] at h
  · intro w issue
    rfl

/-- Witness for C10: the first conjunct applied to the parse of the
branch `/eng-5-fix`, whose assignee is the empty first segment. -/
theorem parse_assignee_never_null_witness :
    ({ assignee := some "", issueIdentifier := "ENG-5" } : BranchSpec).assignee =
      some ((jsSplit "/eng-5-fix" '/').getD 0 "") :=
  parse_assignee_never_null_and_empty_is_noop.1 orgEx "/eng-5-fix"
    { assignee := some "", issueIdentifier := "ENG-5" } (by decide)

/-- C2: when the current issue state type is `triage`, `backlog` or
`unstarted`, the advancer issues exactly one update setting the state
to the team draft state id; for any other state type it issues no
update, so re-running on an already advanced issue is a no-op. -/
theorem advancer_updates_exactly_in_early_states
    (w : World) (issueIdentifier : String)
    (st : WorkflowState) (t : Team) (d : WorkflowState)
    (hstate : w.issue.state = some st)
    (hteam : w.issue.team = some t)
    (hdraft : t.draftWorkflowState = some d) :
    (st.type = "triage" ∨ st.type = "backlog" ∨ st.type = "unstarted" →
      maybeUpdateIssueToTeamDraftState w issueIdentifier =
        ([Event.fetchIssue issueIdentifier, Event.update (IssueUpdate.setState d.id)],
         Except.ok w.issue)) ∧
    (st.type ≠ "triage" ∧ st.type ≠ "backlog" ∧ st.type ≠ "unstarted" →
      maybeUpdateIssueToTeamDraftState w issueIdentifier =
        ([Event.fetchIssue issueIdentifier], Except.ok w.issue)) := by
  constructor
  · intro h
    have hm : st.type ∈ (["triage", "backlog", "unstarted"] : List String) := by
      rcases h with h | h | h <;> simp [h]
    simp [maybeUpdateIssueToTeamDraftState, hteam, hdraft, hstate, hm]
  · intro h
    have hm : st.type ∉ (["triage", "backlog", "unstarted"] : List String) := by
      simp [h.1, h.2.1, h.2.2]
    simp [maybeUpdateIssueToTeamDraftState, hteam, hdraft, hstate, hm]

/-- Witness for C2: on the sample backlog issue the advancer issues the
single update setting the state to the draft state id. -/
theorem advancer_updates_witness :
    maybeUpdateIssueToTeamDraftState worldEx "ENG-42" =
      ([Event.fetchIssue "ENG-42", Event.update (IssueUpdate.setState "state-draft")],
       Except.ok issueEx) :=
  (advancer_updates_exactly_in_early_states worldEx "ENG-42" backlogState teamEx draftState
    rfl rfl rfl).1 (Or.inr (Or.inl rfl))

/-- C6: the advancer throws, with no update issued, when the issue has
no team (`MissingTeam`), when the team has no draft workflow state, or
when the issue state cannot be resolved
(`MissingDraftStateOrIssueState`); and any advancer error aborts the
whole `on-create-branch` operation for that branch. -/
theorem advancer_fails_on_missing_preconditions (w : World) (issueIdentifier : String) :
    (w.issue.team = none →
      maybeUpdateIssueToTeamDraftState w issueIdentifier =
        ([Event.fetchIssue issueIdentifier], Except.error LinearError.MissingTeam)) ∧
    (∀ t, w.issue.team = some t → t.draftWorkflowState = none →
      maybeUpdateIssueToTeamDraftState w issueIdentifier =
        ([Event.fetchIssue issueIdentifier],
         Except.error LinearError.MissingDraftStateOrIssueState)) ∧
    (∀ t d, w.issue.team = some t → t.draftWorkflowState = some d → w.issue.state = none →
      maybeUpdateIssueToTeamDraftState w issueIdentifier =
        ([Event.fetchIssue issueIdentifier],
         Except.error LinearError.MissingDraftStateOrIssueState)) ∧
    (∀ branch spec e evs,
      collectAssigneeIssueIdentifierFromBranchName w.organization branch = Except.ok spec →
      maybeUpdateIssueToTeamDraftState w spec.issueIdentifier = (evs, Except.error e) →
      onCreateBranch w branch = (Event.fetchOrganization :: evs, Except.error e)) := by
  refine ⟨?_, ?_, ?_, ?_⟩
  · intro hteam
    simp [maybeUpdateIssueToTeamDraftState, hteam]
  · intro t hteam hdraft
    simp [maybeUpdateIssueToTeamDraftState, hteam, hdraft]
  · intro t d hteam hdraft hstate
    simp [maybeUpdateIssueToTeamDraftState, hteam, hdraft, hstate]
  · intro branch spec e evs hparse hadv
    simp [onCreateBranch, hparse, hadv]

/-- Witness for C6: a world whose issue has a team without a draft
workflow state makes the advancer fail and the orchestrator abort. -/
theorem advancer_fails_witness :
    maybeUpdateIssueToTeamDraftState
        { organization := orgEx,
          issue := { state := some backlogState, team := some { draftWorkflowState := none },
                     assignee := none },
          users := [userBob] } "ENG-42" =
      ([Event.fetchIssue "ENG-42"], Except.error LinearError.MissingDraftStateOrIssueState) :=
  (advancer_fails_on_missing_preconditions
      { organization := orgEx,
        issue := { state := some backlogState, team := some { draftWorkflowState := none },
                   assignee := none },
        users := [userBob] } "ENG-42").2.1 { draftWorkflowState := none } rfl rfl

/-- C3: the assignee setter is a no-op, with no user lookup and no
update call, when the BranchSpec has no assignee or when the issue
already has an assignee; the existing assignment is never overwritten
and the issue is returned unchanged. -/
theorem setter_noop_without_name_or_when_assigned
    (w : World) (issue : Issue) (assigneeName : Option String) :
    (assigneeName = none →
      maybeSetIssueAssignee w issue assigneeName = ([], Except.ok issue)) ∧
    (∀ u, issue.assignee = some u →
      maybeSetIssueAssignee w issue assigneeName = ([], Except.ok issue)) := by
  constructor
  · rintro rfl
    rfl
  · intro u hu
    match assigneeName with
    | none => rfl
    | some name =>
      by_cases hn : name = ""
      · simp [maybeSetIssueAssignee, hn]
      · simp [maybeSetIssueAssignee, hn, hu]

/-- Witness for C3: on the sample issue that is already assigned, the
setter makes no remote call even though a name is given. -/
theorem setter_noop_witness :
    maybeSetIssueAssignee worldEx assignedIssue (some "alice") =
      ([], Except.ok assignedIssue) :=
  (setter_noop_without_name_or_when_assigned worldEx assignedIssue (some "alice")).2
    userBob rfl

/-- C4: on an unassigned issue with a present assignee name, when
exactly one user has that display name the setter issues one update
setting the assignee id to that user; when the display-name filter does
not return exactly one user, it fails with `AssigneeResolutionFailed`
and issues no update. -/
theorem setter_resolves_unique_user (w : World) (issue : Issue) (name : String)
    (hunassigned : issue.assignee = none) (hname : name ≠ "") :
    (∀ u, w.users.filter (fun v => v.displayName = name) = [u] →
      maybeSetIssueAssignee w issue (some name) =
        ([Event.userQuery name, Event.update (IssueUpdate.setAssignee u.id)],
         Except.ok issue)) ∧
    ((w.users.filter (fun v => v.displayName = name)).length ≠ 1 →
      maybeSetIssueAssignee w issue (some name) =
        ([Event.userQuery name], Except.error LinearError.AssigneeResolutionFailed)) := by
  constructor
  · intro u hu
    simp [maybeSetIssueAssignee, hname, hunassigned, getUserFromDisplayName, hu]
  · intro hlen
    simp [maybeSetIssueAssignee, hname, hunassigned, getUserFromDisplayName, hlen]

/-- Witness for C4: in the sample workspace, with bob the unique match,
the unassigned sample issue gets exactly one assignee update. -/
theorem setter_resolves_unique_user_witness :
    maybeSetIssueAssignee worldEx issueEx (some "bob") =
      ([Event.userQuery "bob", Event.update (IssueUpdate.setAssignee "user-bob")],
       Except.ok issueEx) :=
  (setter_resolves_unique_user worldEx issueEx "bob" rfl (by decide)).1 userBob (by decide)

/-- C7: the `on-create-branch` orchestrator runs the organization
fetch, then branch parsing, then the workflow advancer, then the
assignee setter, strictly in that order: a parse failure leaves only
the organization fetch in the trace and returns that error; an advancer
failure leaves the organization fetch followed by the advancer trace
and returns that error, with the setter never run; on success the trace
is the organization fetch, the advancer trace, then the setter trace,
with the setter run on the advancer result and the parsed assignee. -/
theorem orchestrator_runs_stages_in_order (w : World) (branch : String) :
    (∀ e, collectAssigneeIssueIdentifierFromBranchName w.organization branch =
        Except.error e →
      onCreateBranch w branch = ([Event.fetchOrganization], Except.error e)) ∧
    (∀ spec evs e,
      collectAssigneeIssueIdentifierFromBranchName w.organization branch = Except.ok spec →
      maybeUpdateIssueToTeamDraftState w spec.issueIdentifier = (evs, Except.error e) →
      onCreateBranch w branch = (Event.fetchOrganization :: evs, Except.error e)) ∧
    (∀ spec evs issue,
      collectAssigneeIssueIdentifierFromBranchName w.organization branch = Except.ok spec →
      maybeUpdateIssueToTeamDraftState w spec.issueIdentifier = (evs, Except.ok issue) →
      onCreateBranch w branch =
        (Event.fetchOrganization ::
           (evs ++ (maybeSetIssueAssignee w issue spec.assignee).1),
         (maybeSetIssueAssignee w issue spec.assignee).2)) := by
  refine ⟨?_, ?_, ?_⟩
  · intro e hparse
    simp [onCreateBranch, hparse]
  · intro spec evs e hparse hadv
    simp [onCreateBranch, hparse, hadv]
  · intro spec evs issue hparse hadv
    simp [onCreateBranch, hparse, hadv]

/-- Witness for C7: the end-to-end run of the specification on the
sample workspace and branch `bob/eng-42-refactor-login`: the state
update and the assignee update are issued in order after the fetches
and the run succeeds. -/
theorem orchestrator_runs_stages_witness :
    onCreateBranch worldEx "bob/eng-42-refactor-login" =
      ([Event.fetchOrganization, Event.fetchIssue "ENG-42",
        Event.update (IssueUpdate.setState "state-draft"),
        Event.userQuery "bob", Event.update (IssueUpdate.setAssignee "user-bob")],
       Except.ok issueEx) :=
  ((orchestrator_runs_stages_in_order worldEx "bob/eng-42-refactor-login").2.2
      { assignee := some "bob", issueIdentifier := "ENG-42" }
      [Event.fetchIssue "ENG-42", Event.update (IssueUpdate.setState "state-draft")]
      issueEx (by decide) (by decide)).trans (by decide)

/-- C8: whenever the resolved positional command list does not have
exactly one entry, `main` exits with code 1 and neither constructs the
API client nor performs the organization fetch (no network step). -/
theorem main_exits_on_bad_command_count (args : Arguments)
    (h : args.positional.length ≠ 1) :
    main args = [MainEvent.exitProcess 1] ∧
    MainEvent.constructClient ∉ main args ∧
    MainEvent.fetchOrganization ∉ main args := by
  refine ⟨?_, ?_, ?_⟩ <;> simp [main, h]

/-- Witness for C8: with no positional command at all, `main` exits
with code 1. -/
theorem main_exits_witness :
    main { positional := [], branchName := none } = [MainEvent.exitProcess 1] :=
  (main_exits_on_bad_command_count { positional := [], branchName := none } (by decide)).1

end LinearUtils
